import Mathlib

/-!
Verification of the checkpoint/rollback store implemented in
`src/rollback/rollback_manager.py`.

The development contains two shallow embeddings of the `RollbackManager`
class:

* a *value-level* model, in which Python dict payloads are immutable
  association lists (`Payload`); `copy.deepcopy` is the identity there, and
  the model is used for the functional claims (bounds, ordering, offsets,
  export/import, validation);

* a *heap* model (`Heap`, `HManager`), in which payload dicts live at
  addresses and mutation is explicit; it is used for the snapshot-isolation
  claim, where aliasing versus copying is the very subject.

Python dict values are modelled by `Prim`: JSON-native ints and strings plus
`Prim.handle`, an opaque object that the strict `json.dumps` cannot
serialize; its `String` argument is the `str()` rendering that
`json.dump(..., default=str)` substitutes for it.  Payload dicts are flat
string-keyed maps; nesting is orthogonal to every claim checked here.

`datetime` instants are modelled as `Nat`; `datetime.isoformat` /
`datetime.fromisoformat` are modelled by an injective decimal rendering and
its parser (`isoformat` / `fromisoformat`), which is all the claims use of
the ISO-8601 text form (lossless, unambiguous).  The `strftime` component of
a checkpoint id is likewise the decimal rendering of the instant.
-/

/-- A primitive Python value stored in a dict: JSON-native ints and strings,
plus `handle s`, an object the strict JSON encoder rejects (a set, a
datetime, an open file, ...) whose `str()` form is `s`. -/
inductive Prim where
  | int : Int → Prim
  | str : String → Prim
  | handle : String → Prim
deriving DecidableEq, Repr

/-- A Python dict used as a checkpoint payload or metadata mapping,
modelled as an insertion-ordered association list. -/
abbrev Payload := List (String × Prim)

/-- The decimal digit character for `d % 10`-style arguments. -/
def digitChar (d : Nat) : Char :=
  match d with
  | 0 => '0' | 1 => '1' | 2 => '2' | 3 => '3' | 4 => '4'
  | 5 => '5' | 6 => '6' | 7 => '7' | 8 => '8' | _ => '9'

/-- Numeric value of a digit character. -/
def digitVal (c : Char) : Nat := c.toNat - 48

/-- Decimal rendering with an explicit recursion-depth bound (any
`fuel ≥ n` gives the same answer); structural recursion keeps the
definition computable by the kernel. -/
def natCharsAux : Nat → Nat → List Char
  | 0, n => [digitChar n]
  | fuel + 1, n =>
    if n < 10 then [digitChar n]
    else natCharsAux fuel (n / 10) ++ [digitChar (n % 10)]

/-- Decimal rendering of a natural number as a list of digit characters,
modelling Python's `str()` of a nonnegative int. -/
def natChars (n : Nat) : List Char := natCharsAux n n

theorem natCharsAux_congr : ∀ f g n : Nat, n ≤ f → n ≤ g →
    natCharsAux f n = natCharsAux g n := by
  intro f
  induction f with
  | zero =>
    intro g n hf hg
    have : n = 0 := by omega
    subst this
    cases g with
    | zero => rfl
    | succ g => simp [natCharsAux]
  | succ f ih =>
    intro g n hf hg
    cases g with
    | zero =>
      have : n = 0 := by omega
      subst this
      simp [natCharsAux]
    | succ g =>
      by_cases h10 : n < 10
      · simp [natCharsAux, h10]
      · have hdiv : n / 10 < n := Nat.div_lt_self (by omega) (by omega)
        simp only [natCharsAux, if_neg h10]
        rw [ih g (n / 10) (by omega) (by omega)]

theorem natChars_eq (n : Nat) :
    natChars n = if n < 10 then [digitChar n] else natChars (n / 10) ++ [digitChar (n % 10)] := by
  by_cases h10 : n < 10
  · rw [if_pos h10]
    cases n with
    | zero => rfl
    | succ k => simp [natChars, natCharsAux, h10]
  · rw [if_neg h10]
    have hn : ∃ m, n = m + 1 := ⟨n - 1, by omega⟩
    obtain ⟨m, rfl⟩ := hn
    have hdiv : (m + 1) / 10 < m + 1 := Nat.div_lt_self (by omega) (by omega)
    show natCharsAux (m + 1) (m + 1) = _
    simp only [natCharsAux, if_neg h10]
    rw [natCharsAux_congr m ((m + 1) / 10) ((m + 1) / 10) (by omega) (by omega)]
    rfl

/-- Parse a list of decimal digit characters back to a natural number. -/
def parseNat (l : List Char) : Nat :=
  l.foldl (fun a c => a * 10 + digitVal c) 0

theorem digitChar_isDigit (d : Nat) : (digitChar d).isDigit = true := by
  unfold digitChar
  split <;> decide

theorem digitVal_digitChar (d : Nat) (h : d < 10) : digitVal (digitChar d) = d := by
  interval_cases d <;> decide

theorem natChars_ne_nil (n : Nat) : natChars n ≠ [] := by
  rw [natChars_eq]
  split
  · simp
  · simp

theorem natChars_all_digits (n : Nat) : ∀ c ∈ natChars n, c.isDigit = true := by
  induction n using Nat.strong_induction_on with
  | _ n ih =>
    rw [natChars_eq]
    split
    · intro c hc
      simp at hc
      subst hc
      exact digitChar_isDigit n
    · intro c hc
      rw [List.mem_append] at hc
      rcases hc with hc | hc
      · exact ih (n / 10) (Nat.div_lt_self (by omega) (by omega)) c hc
      · simp at hc
        subst hc
        exact digitChar_isDigit (n % 10)

theorem parseNat_append_digit (l : List Char) (c : Char) :
    parseNat (l ++ [c]) = parseNat l * 10 + digitVal c := by
  unfold parseNat
  rw [List.foldl_append]
  rfl

theorem parseNat_natChars (n : Nat) : parseNat (natChars n) = n := by
  induction n using Nat.strong_induction_on with
  | _ n ih =>
    rw [natChars_eq]
    split
    · unfold parseNat
      simp [List.foldl]
      exact digitVal_digitChar n (by omega)
    · rw [parseNat_append_digit, ih (n / 10) (Nat.div_lt_self (by omega) (by omega)),
        digitVal_digitChar (n % 10) (Nat.mod_lt n (by omega))]
      omega

theorem natChars_inj {a b : Nat} (h : natChars a = natChars b) : a = b := by
  have := parseNat_natChars a
  rw [h, parseNat_natChars] at this
  omega

/-- Model of `datetime.isoformat()`: a lossless, injective text rendering of
the instant. -/
def isoformat (t : Nat) : String := String.mk (natChars t)

/-- Model of `datetime.fromisoformat`: parses exactly the strings produced
by `isoformat`; anything else raises, modelled as `none`. -/
def fromisoformat (s : String) : Option Nat :=
  if s.data ≠ [] ∧ s.data.all Char.isDigit then some (parseNat s.data) else none

theorem fromisoformat_isoformat (t : Nat) : fromisoformat (isoformat t) = some t := by
  unfold fromisoformat isoformat
  rw [if_pos]
  · simp [parseNat_natChars]
  · constructor
    · simpa using natChars_ne_nil t
    · simpa [List.all_eq_true] using natChars_all_digits t

theorem isoformat_inj {a b : Nat} (h : isoformat a = isoformat b) : a = b := by
  have := fromisoformat_isoformat a
  rw [h, fromisoformat_isoformat] at this
  simpa using this.symm

/-- The character list of a checkpoint id:
`f"checkpoint_{checkpoint_count}_{now.strftime(...)}"`, where the strftime
component is modelled by the decimal rendering of the instant. -/
def idChars (count now : Nat) : List Char :=
  "checkpoint".data ++ '_' :: (natChars count ++ '_' :: natChars now)

/-- The checkpoint id string assigned by `create_checkpoint` (line 78). -/
def mkCheckpointId (count now : Nat) : String := String.mk (idChars count now)

theorem append_sep_inj {a b x y : List Char}
    (ha : '_' ∉ a) (hb : '_' ∉ b) (h : a ++ '_' :: x = b ++ '_' :: y) :
    a = b ∧ x = y := by
  induction a generalizing b with
  | nil =>
    cases b with
    | nil => simpa using h
    | cons c bs =>
      simp at h
      exact absurd (h.1 ▸ List.mem_cons_self c bs) hb
  | cons c as ih =>
    cases b with
    | nil =>
      simp at h
      exact absurd (h.1 ▸ List.mem_cons_self c as) ha
    | cons d bs =>
      simp at h
      obtain ⟨rfl, h2⟩ := h
      have := ih (fun hm => ha (List.mem_cons_of_mem _ hm))
        (fun hm => hb (List.mem_cons_of_mem _ hm)) h2
      exact ⟨by rw [this.1], this.2⟩

theorem not_underscore_mem_natChars (n : Nat) : '_' ∉ natChars n := by
  intro hm
  have := natChars_all_digits n '_' hm
  simp [Char.isDigit] at this

theorem mkCheckpointId_count_inj {c₁ t₁ c₂ t₂ : Nat}
    (h : mkCheckpointId c₁ t₁ = mkCheckpointId c₂ t₂) : c₁ = c₂ := by
  have hl : idChars c₁ t₁ = idChars c₂ t₂ := congrArg String.data h
  unfold idChars at hl
  have hl2 := List.append_cancel_left hl
  have hl3 : natChars c₁ ++ '_' :: natChars t₁ = natChars c₂ ++ '_' :: natChars t₂ := by
    simpa using hl2
  exact natChars_inj (append_sep_inj (not_underscore_mem_natChars c₁)
    (not_underscore_mem_natChars c₂) hl3).1

theorem mkCheckpointId_ne_empty (c t : Nat) : mkCheckpointId c t ≠ "" := by
  intro h
  have := congrArg String.data h
  simp [mkCheckpointId, idChars] at this

/-- `RollbackPoint` (rollback_manager.py lines 13-20): one stored snapshot.
`deepcopy` is the identity on these immutable values; the aliasing story is
handled by the heap model below. -/
structure RollbackPoint where
  id : String
  timestamp : Nat
  description : String
  state_snapshot : Payload
  metadata : Payload
deriving DecidableEq, Repr

/-- The dict built by `RollbackPoint.to_dict` (lines 22-30).  Its
`state_snapshot` and `metadata` entries are the stored dicts themselves,
not copies; in this value-level model that distinction is invisible. -/
structure CheckpointDict where
  id : String
  timestamp : String
  description : String
  state_snapshot : Payload
  metadata : Payload
deriving DecidableEq, Repr

/-- `RollbackPoint.to_dict` (lines 22-30). -/
def RollbackPoint.to_dict (cp : RollbackPoint) : CheckpointDict :=
  { id := cp.id
    timestamp := isoformat cp.timestamp
    description := cp.description
    state_snapshot := cp.state_snapshot
    metadata := cp.metadata }

/-- The parsed JSON object read from / written to a checkpoint file.  Each
field is optional because an external record may omit keys;
`export_checkpoint` always writes all five. -/
structure ExportRecord where
  id : Option String
  timestamp : Option String
  description : Option String
  state_snapshot : Option Payload
  metadata : Option Payload
deriving DecidableEq, Repr

/-- Mutable state of a `RollbackManager` instance (lines 38-59). -/
structure RollbackManager where
  enabled : Bool
  max_history : Nat
  auto_cleanup : Bool
  rollback_points : List RollbackPoint
  current_state : Payload
  rollback_count : Nat
  checkpoint_count : Nat
deriving DecidableEq, Repr

/-- `RollbackManager.__init__` (lines 38-59): the config supplies
`enabled` (default true), `max_history` (default 10), `auto_cleanup`
(default true); history and counters start empty. -/
def mkRollbackManager (enabled : Bool) (max_history : Nat) (auto_cleanup : Bool) :
    RollbackManager :=
  { enabled := enabled
    max_history := max_history
    auto_cleanup := auto_cleanup
    rollback_points := []
    current_state := []
    rollback_count := 0
    checkpoint_count := 0 }

/-- True iff the strict `json.dumps` (no `default=`) accepts the payload:
it fails exactly on `Prim.handle` values. -/
def serializable (p : Payload) : Bool :=
  p.all fun kv =>
    match kv.2 with
    | Prim.handle _ => false
    | _ => true

/-- What `json.dump(..., default=str)` writes for a payload: JSON-native
values pass through, every unrepresentable value is replaced by its
`str()` form. -/
def jsonDefaultStr (p : Payload) : Payload :=
  p.map fun kv =>
    match kv.2 with
    | Prim.handle s => (kv.1, Prim.str s)
    | v => (kv.1, v)

theorem jsonDefaultStr_of_serializable {p : Payload} (h : serializable p = true) :
    jsonDefaultStr p = p := by
  induction p with
  | nil => rfl
  | cons kv rest ih =>
    simp only [serializable, List.all_cons, Bool.and_eq_true] at h
    have hrest := ih h.2
    obtain ⟨k, v⟩ := kv
    cases v with
    | int n =>
      simp only [jsonDefaultStr, List.map_cons] at hrest ⊢
      simpa using hrest
    | str s =>
      simp only [jsonDefaultStr, List.map_cons] at hrest ⊢
      simpa using hrest
    | handle s => exact absurd h.1 (by simp)

/-- The new `RollbackPoint` built inside `create_checkpoint` (lines 80-86).
`metadata or {}` stores `{}` when the argument is absent or empty. -/
def newRollbackPoint (m : RollbackManager) (description : String) (state : Payload)
    (metadata : Option Payload) (now : Nat) : RollbackPoint :=
  { id := mkCheckpointId m.checkpoint_count now
    timestamp := now
    description := description
    state_snapshot := state
    metadata := match metadata with
      | none => []
      | some md => if md.isEmpty then [] else md }

/-- `RollbackManager.create_checkpoint` (lines 61-98).  Returns the
checkpoint id (the empty string is the disabled sentinel) and the updated
manager.  `now` is the `datetime.now()` instant; the source calls it twice
(id and timestamp), modelled as one reading. -/
def create_checkpoint (m : RollbackManager) (description : String) (state : Payload)
    (metadata : Option Payload) (now : Nat) : String × RollbackManager :=
  if m.enabled = false then ("", m)
  else
    let rp := newRollbackPoint m description state metadata now
    let pts := m.rollback_points ++ [rp]
    let pts2 := if m.auto_cleanup = true ∧ m.max_history < pts.length then pts.tail else pts
    (rp.id,
      { m with
        rollback_points := pts2
        current_state := state
        checkpoint_count := m.checkpoint_count + 1 })

/-- `RollbackManager.rollback_to_checkpoint` (lines 100-136): linear search
for the first point with the given id; on success the deep copy of its
snapshot becomes `current_state`, `rollback_count` increments. -/
def rollback_to_checkpoint (m : RollbackManager) (checkpoint_id : String) :
    Option Payload × RollbackManager :=
  if m.enabled = false then (none, m)
  else
    match m.rollback_points.find? (fun cp => cp.id == checkpoint_id) with
    | none => (none, m)
    | some cp =>
      (some cp.state_snapshot,
        { m with
          current_state := cp.state_snapshot
          rollback_count := m.rollback_count + 1 })

/-- Python's `max(xs, key=...)`: the first element attaining the maximal
key (later elements replace the accumulator only on strictly greater key). -/
def pyMaxBy {α : Type} (key : α → Nat) : List α → Option α
  | [] => none
  | x :: xs => some (xs.foldl (fun acc y => if key acc < key y then y else acc) x)

/-- `RollbackManager.rollback_to_latest` (lines 138-150). -/
def rollback_to_latest (m : RollbackManager) : Option Payload × RollbackManager :=
  match pyMaxBy (fun cp => cp.timestamp) m.rollback_points with
  | none => (none, m)
  | some latest => rollback_to_checkpoint m latest.id

/-- `sorted(self.rollback_points, key=lambda cp: cp.timestamp, reverse=True)`
(line 171): a stable sort, newest first. -/
def sortByTimestampDesc (l : List RollbackPoint) : List RollbackPoint :=
  l.mergeSort fun a b => Nat.ble b.timestamp a.timestamp

/-- `RollbackManager.rollback_n_steps` (lines 152-174).  `steps` is a Python
int, hence `Int`.  The index into the sorted list is in range whenever it is
evaluated, so the unreachable out-of-range arm returns `(none, m)`. -/
def rollback_n_steps (m : RollbackManager) (steps : Int) : Option Payload × RollbackManager :=
  if m.rollback_points.isEmpty then (none, m)
  else if steps ≤ 0 ∨ (m.rollback_points.length : Int) < steps then (none, m)
  else
    match (sortByTimestampDesc m.rollback_points)[(steps - 1).toNat]? with
    | some target => rollback_to_checkpoint m target.id
    | none => (none, m)

/-- `RollbackManager.get_checkpoint_history` (lines 176-183). -/
def get_checkpoint_history (m : RollbackManager) : List CheckpointDict :=
  (sortByTimestampDesc m.rollback_points).map RollbackPoint.to_dict

/-- `RollbackManager.get_checkpoint` (lines 185-198). -/
def get_checkpoint (m : RollbackManager) (checkpoint_id : String) : Option CheckpointDict :=
  (m.rollback_points.find? (fun cp => cp.id == checkpoint_id)).map RollbackPoint.to_dict

/-- `RollbackManager.delete_checkpoint` (lines 200-217): removes the first
point with the given id, reports whether one was removed. -/
def delete_checkpoint (m : RollbackManager) (checkpoint_id : String) :
    Bool × RollbackManager :=
  match m.rollback_points.find? (fun cp => cp.id == checkpoint_id) with
  | none => (false, m)
  | some _ =>
    (true,
      { m with
        rollback_points := m.rollback_points.eraseP (fun cp => cp.id == checkpoint_id) })

/-- `RollbackManager.clear_history` (lines 219-224): empties history and
`current_state`; the counters are untouched. -/
def clear_history (m : RollbackManager) : RollbackManager :=
  { m with rollback_points := [], current_state := [] }

/-- `RollbackManager.export_checkpoint` (lines 226-250): `none` models the
`False` return (id not found); the record is what `json.dump(checkpoint_data,
f, indent=2, default=str)` writes — `default=str` coerces unrepresentable
values, so serialization itself never fails here.  The external file sink is
outside the model. -/
def export_checkpoint (m : RollbackManager) (checkpoint_id : String) :
    Option ExportRecord :=
  (get_checkpoint m checkpoint_id).map fun d =>
    { id := some d.id
      timestamp := some d.timestamp
      description := some d.description
      state_snapshot := some (jsonDefaultStr d.state_snapshot)
      metadata := some (jsonDefaultStr d.metadata) }

/-- `RollbackManager.import_checkpoint` (lines 252-286), applied to an
already-parsed external record (file reading and JSON parsing are outside
the model).  Missing required keys raise `ValueError`, an unparsable
timestamp raises in `fromisoformat`; both are caught and return `None`
with the store untouched. -/
def import_checkpoint (m : RollbackManager) (data : ExportRecord) :
    Option String × RollbackManager :=
  match data.id, data.timestamp, data.description, data.state_snapshot with
  | some i, some ts, some desc, some snap =>
    match fromisoformat ts with
    | none => (none, m)
    | some t =>
      let rp : RollbackPoint :=
        { id := i
          timestamp := t
          description := desc
          state_snapshot := snap
          metadata := data.metadata.getD [] }
      (some i, { m with rollback_points := m.rollback_points ++ [rp] })
  | _, _, _, _ => (none, m)

/-- The report produced by `validate_state_integrity` (lines 306-332). -/
structure ValidationReport where
  total_checkpoints : Nat
  valid_checkpoints : Nat
  invalid_checkpoints : Nat
  errors : List (String × String)
deriving DecidableEq, Repr

/-- The error text recorded for a snapshot the strict encoder rejects
(`str(e)` of the `TypeError`). -/
def jsonErrorText : String := "Object is not JSON serializable"

/-- The loop body of `validate_state_integrity` (lines 320-330): a strict
`json.dumps` of the snapshot either counts it valid or records
`(checkpoint_id, error)`. -/
def validateStep (rep : ValidationReport) (cp : RollbackPoint) : ValidationReport :=
  if serializable cp.state_snapshot then
    { rep with valid_checkpoints := rep.valid_checkpoints + 1 }
  else
    { rep with
      invalid_checkpoints := rep.invalid_checkpoints + 1
      errors := rep.errors ++ [(cp.id, jsonErrorText)] }

/-- `RollbackManager.validate_state_integrity` (lines 306-332). -/
def validate_state_integrity (m : RollbackManager) : ValidationReport :=
  m.rollback_points.foldl validateStep
    { total_checkpoints := m.rollback_points.length
      valid_checkpoints := 0
      invalid_checkpoints := 0
      errors := [] }

/-- One public mutating call on a `RollbackManager` instance, for stating
whole-lifetime properties.  Each `create` carries its `datetime.now()`
reading. -/
inductive Op where
  | create (description : String) (state : Payload) (metadata : Option Payload) (now : Nat)
  | rollbackTo (checkpoint_id : String)
  | rollbackLatest
  | rollbackN (steps : Int)
  | deleteCp (checkpoint_id : String)
  | clearHistory
  | importCp (data : ExportRecord)

/-- Apply one call, discarding its return value. -/
def stepOp (m : RollbackManager) : Op → RollbackManager
  | Op.create d s md now => (create_checkpoint m d s md now).2
  | Op.rollbackTo cid => (rollback_to_checkpoint m cid).2
  | Op.rollbackLatest => (rollback_to_latest m).2
  | Op.rollbackN n => (rollback_n_steps m n).2
  | Op.deleteCp cid => (delete_checkpoint m cid).2
  | Op.clearHistory => clear_history m
  | Op.importCp data => (import_checkpoint m data).2

/-- The non-sentinel ids returned by the `create_checkpoint` calls of a call
sequence, in order. -/
def createdIds (m : RollbackManager) : List Op → List String
  | [] => []
  | op :: ops =>
    match op with
    | Op.create d s md now =>
      let r := create_checkpoint m d s md now
      (if r.1 = "" then [] else [r.1]) ++ createdIds r.2 ops
    | _ => createdIds (stepOp m op) ops

/-- A Python dict object on the heap. -/
abbrev Dict := Payload

/-- A heap of dict objects: `mem` maps addresses to contents (latest entry
wins), `next` is the next fresh address. -/
structure Heap where
  mem : List (Nat × Dict)
  next : Nat
deriving DecidableEq, Repr

/-- Read the dict stored at an address (unallocated addresses read as `{}`;
the theorems only read allocated ones). -/
def Heap.read (h : Heap) (a : Nat) : Dict :=
  match h.mem.find? (fun p => p.1 == a) with
  | some p => p.2
  | none => []

/-- Overwrite the dict at an address. -/
def Heap.write (h : Heap) (a : Nat) (d : Dict) : Heap :=
  { mem := (a, d) :: h.mem, next := h.next }

/-- Allocate a fresh dict object, returning its address. -/
def Heap.alloc (h : Heap) (d : Dict) : Nat × Heap :=
  (h.next, { mem := (h.next, d) :: h.mem, next := h.next + 1 })

/-- `d[k] = v` on a dict value: replace the entry if the key is present,
append it otherwise. -/
def dictSet (d : Dict) (k : String) (v : Prim) : Dict :=
  if d.any (fun kv => kv.1 == k) then
    d.map fun kv => if kv.1 == k then (k, v) else kv
  else d ++ [(k, v)]

/-- `obj[k] = v` through an address: the in-place mutation whose visibility
across aliases the isolation claim is about. -/
def Heap.setItem (h : Heap) (a : Nat) (k : String) (v : Prim) : Heap :=
  h.write a (dictSet (h.read a) k v)

/-- `copy.deepcopy` of the dict at `a`: a fresh object with equal contents. -/
def Heap.deepcopy (h : Heap) (a : Nat) : Nat × Heap :=
  h.alloc (h.read a)

theorem Heap.read_write_self (h : Heap) (a : Nat) (d : Dict) :
    (h.write a d).read a = d := by
  simp [Heap.read, Heap.write, List.find?]

theorem Heap.read_write_ne (h : Heap) {a b : Nat} (hab : a ≠ b) (d : Dict) :
    (h.write b d).read a = h.read a := by
  have hba : (b == a) = false := by simp [Ne.symm hab]
  simp [Heap.read, Heap.write, List.find?, hba]

theorem Heap.read_alloc_self (h : Heap) (d : Dict) :
    (h.alloc d).2.read (h.alloc d).1 = d := by
  simp [Heap.read, Heap.alloc, List.find?]

theorem Heap.read_alloc_ne (h : Heap) {a : Nat} (d : Dict) (hab : a ≠ h.next) :
    (h.alloc d).2.read a = h.read a := by
  have hba : (h.next == a) = false := by simp [Ne.symm hab]
  simp [Heap.read, Heap.alloc, List.find?, hba]

theorem Heap.read_setItem_ne (h : Heap) {a b : Nat} (hab : a ≠ b) (k : String) (v : Prim) :
    (h.setItem b k v).read a = h.read a :=
  Heap.read_write_ne h hab _

theorem Heap.next_alloc (h : Heap) (d : Dict) : (h.alloc d).2.next = h.next + 1 := rfl

/-- Heap-model `RollbackPoint`: `state_snapshot` and `metadata` are
addresses of dict objects. -/
structure HRollbackPoint where
  id : String
  timestamp : Nat
  description : String
  state_snapshot : Nat
  metadata : Nat
deriving DecidableEq, Repr

/-- Heap-model manager state. -/
structure HManager where
  enabled : Bool
  max_history : Nat
  auto_cleanup : Bool
  rollback_points : List HRollbackPoint
  current_state : Nat
  rollback_count : Nat
  checkpoint_count : Nat
deriving DecidableEq, Repr

/-- The dict built by `to_dict` in the heap model: the outer dict is new,
but its `state_snapshot` and `metadata` entries are the addresses of the
stored dicts themselves — `to_dict` (lines 22-30) copies nothing. -/
structure HCheckpointDict where
  id : String
  timestamp : String
  description : String
  state_snapshot : Nat
  metadata : Nat
deriving DecidableEq, Repr

/-- Heap-model `create_checkpoint` (lines 61-98): `state` and `metadata` are
addresses of the caller's dicts.  `state_snapshot` gets `deepcopy(state)`;
`metadata or {}` allocates a fresh empty dict when the argument is absent or
empty, and otherwise stores the caller's dict address *unchanged* (the
source does not copy metadata); `current_state` gets a second
`deepcopy(state)`. -/
def hcreate_checkpoint (m : HManager) (h : Heap) (description : String) (state : Nat)
    (metadata : Option Nat) (now : Nat) : String × HManager × Heap :=
  if m.enabled = false then ("", m, h)
  else
    let checkpoint_id := mkCheckpointId m.checkpoint_count now
    let r1 := h.deepcopy state
    let r2 := match metadata with
      | none => r1.2.alloc []
      | some a => if r1.2.read a = [] then r1.2.alloc [] else (a, r1.2)
    let rp : HRollbackPoint :=
      { id := checkpoint_id
        timestamp := now
        description := description
        state_snapshot := r1.1
        metadata := r2.1 }
    let r3 := r2.2.deepcopy state
    let pts := m.rollback_points ++ [rp]
    let pts2 := if m.auto_cleanup = true ∧ m.max_history < pts.length then pts.tail else pts
    (checkpoint_id,
      { m with
        rollback_points := pts2
        current_state := r3.1
        checkpoint_count := m.checkpoint_count + 1 },
      r3.2)

/-- Heap-model `rollback_to_checkpoint` (lines 100-136): the restored state
is `deepcopy(target.state_snapshot)` — a fresh address returned to the
caller and committed as `current_state`. -/
def hrollback_to_checkpoint (m : HManager) (h : Heap) (checkpoint_id : String) :
    Option Nat × HManager × Heap :=
  if m.enabled = false then (none, m, h)
  else
    match m.rollback_points.find? (fun cp => cp.id == checkpoint_id) with
    | none => (none, m, h)
    | some cp =>
      let r := h.deepcopy cp.state_snapshot
      (some r.1,
        { m with current_state := r.1, rollback_count := m.rollback_count + 1 },
        r.2)

/-- Heap-model `get_checkpoint` (lines 185-198): returns `to_dict` of the
first matching point; the heap is untouched and the returned dict's
`state_snapshot`/`metadata` alias the stored objects. -/
def hget_checkpoint (m : HManager) (checkpoint_id : String) : Option HCheckpointDict :=
  (m.rollback_points.find? (fun cp => cp.id == checkpoint_id)).map fun cp =>
    { id := cp.id
      timestamp := isoformat cp.timestamp
      description := cp.description
      state_snapshot := cp.state_snapshot
      metadata := cp.metadata }

theorem jsonDefaultStr_keys (p : Payload) :
    (jsonDefaultStr p).map Prod.fst = p.map Prod.fst := by
  induction p with
  | nil => rfl
  | cons kv rest ih =>
    obtain ⟨k, v⟩ := kv
    cases v <;> simp [jsonDefaultStr] at ih ⊢ <;> exact ih

theorem foldl_validateStep_errors (l : List RollbackPoint) (rep : ValidationReport) :
    (l.foldl validateStep rep).errors =
      rep.errors ++
        (l.filter fun cp => !serializable cp.state_snapshot).map fun cp => (cp.id, jsonErrorText) := by
  induction l generalizing rep with
  | nil => simp
  | cons cp rest ih =>
    cases hs : serializable cp.state_snapshot with
    | true => simp [validateStep, hs, ih]
    | false => simp [validateStep, hs, ih]

theorem foldl_validateStep_invalid (l : List RollbackPoint) (rep : ValidationReport) :
    (l.foldl validateStep rep).invalid_checkpoints =
      rep.invalid_checkpoints +
        (l.filter fun cp => !serializable cp.state_snapshot).length := by
  induction l generalizing rep with
  | nil => simp
  | cons cp rest ih =>
    cases hs : serializable cp.state_snapshot with
    | true => simp [validateStep, hs, ih]
    | false =>
      simp [validateStep, hs, ih]
      omega

/-- Claim C9 (confirmed): with the store configured off, `create_checkpoint`
returns the empty-string sentinel (not an exception) and changes nothing. -/
theorem create_checkpoint_disabled_sentinel (m : RollbackManager) (d : String)
    (s : Payload) (md : Option Payload) (now : Nat) (h : m.enabled = false) :
    (create_checkpoint m d s md now).1 = "" ∧ (create_checkpoint m d s md now).2 = m := by
  simp [create_checkpoint, h]

/-- Witness for C9 at a concrete disabled store. -/
theorem create_checkpoint_disabled_sentinel_witness :
    (create_checkpoint (mkRollbackManager false 10 true) "d" [("x", Prim.int 1)] none 5).1 = "" ∧
    (create_checkpoint (mkRollbackManager false 10 true) "d" [("x", Prim.int 1)] none 5).2 =
      mkRollbackManager false 10 true :=
  create_checkpoint_disabled_sentinel (mkRollbackManager false 10 true) "d"
    [("x", Prim.int 1)] none 5 rfl

/-- Claim C2, counterexample: two imports into a store with
`max_history = 1` and `auto_cleanup = true` leave three-field history of
length 2 — `import_checkpoint` participates in no FIFO bound, so
`len(rollback_points) <= max_history` fails after an import. -/
theorem import_checkpoint_ignores_bound :
    ((import_checkpoint
        (import_checkpoint (mkRollbackManager true 1 true)
          ⟨some "a", some "7", some "d", some [], none⟩).2
        ⟨some "b", some "8", some "d", some [], none⟩).2.rollback_points.length = 2) ∧
    (mkRollbackManager true 1 true).auto_cleanup = true ∧
    ¬ (2 ≤ (mkRollbackManager true 1 true).max_history) := by
  decide

/-- Claim C2 (amended): with `auto_cleanup` on, `create_checkpoint`
preserves `len(rollback_points) <= max_history` (it removes exactly the
insertion-order first element of the appended list when over the bound,
which is the lowest-`created_at` entry only when history is in timestamp
order), while a successful `import_checkpoint` always grows the history by
one, enforcing no bound. -/
theorem create_checkpoint_bounded (m : RollbackManager) (d : String) (s : Payload)
    (md : Option Payload) (now : Nat)
    (hac : m.auto_cleanup = true)
    (hlen : m.rollback_points.length ≤ m.max_history) :
    ((create_checkpoint m d s md now).2.rollback_points.length ≤ m.max_history) ∧
    (m.enabled = true → m.max_history < m.rollback_points.length + 1 →
      (create_checkpoint m d s md now).2.rollback_points =
        (m.rollback_points ++ [newRollbackPoint m d s md now]).tail) ∧
    (∀ data : ExportRecord, (import_checkpoint m data).1 ≠ none →
      (import_checkpoint m data).2.rollback_points.length =
        m.rollback_points.length + 1) := by
  refine ⟨?_, ?_, ?_⟩
  · by_cases hen : m.enabled = false
    · simpa [create_checkpoint, hen] using hlen
    · simp only [create_checkpoint, if_neg hen]
      by_cases hover : m.max_history < (m.rollback_points ++ [newRollbackPoint m d s md now]).length
      · simp only [if_pos (And.intro hac hover)]
        simp only [List.length_append, List.length_cons, List.length_nil] at hover ⊢
        rw [List.length_tail]
        simp
        omega
      · rw [if_neg]
        · simp at hover ⊢
          omega
        · intro hc
          exact hover hc.2
  · intro hen hover
    have hen2 : ¬ (m.enabled = false) := by simp [hen]
    simp only [create_checkpoint, if_neg hen2]
    rw [if_pos]
    exact ⟨hac, by simpa using hover⟩
  · intro data hne
    obtain ⟨i, ts, desc, snap, md2⟩ := data
    cases i with
    | none => simp [import_checkpoint] at hne
    | some i =>
      cases ts with
      | none => simp [import_checkpoint] at hne
      | some ts =>
        cases desc with
        | none => simp [import_checkpoint] at hne
        | some desc =>
          cases snap with
          | none => simp [import_checkpoint] at hne
          | some snap =>
            cases hts : fromisoformat ts with
            | none => simp [import_checkpoint, hts] at hne
            | some t => simp [import_checkpoint, hts]

/-- Witness for C2 (amended) at a concrete full store with capacity 1: the
bound is preserved and the eviction removes the insertion-order head. -/
theorem create_checkpoint_bounded_witness :
    ((create_checkpoint (create_checkpoint (mkRollbackManager true 1 true)
        "a" [("x", Prim.int 1)] none 1).2 "b" [("x", Prim.int 2)] none 2).2.rollback_points.length ≤
      (create_checkpoint (mkRollbackManager true 1 true)
        "a" [("x", Prim.int 1)] none 1).2.max_history) ∧
    ((create_checkpoint (create_checkpoint (mkRollbackManager true 1 true)
        "a" [("x", Prim.int 1)] none 1).2 "b" [("x", Prim.int 2)] none 2).2.rollback_points =
      ((create_checkpoint (mkRollbackManager true 1 true)
          "a" [("x", Prim.int 1)] none 1).2.rollback_points ++
        [newRollbackPoint (create_checkpoint (mkRollbackManager true 1 true)
          "a" [("x", Prim.int 1)] none 1).2 "b" [("x", Prim.int 2)] none 2]).tail) :=
  ⟨(create_checkpoint_bounded _ "b" [("x", Prim.int 2)] none 2 rfl (by decide)).1,
   (create_checkpoint_bounded _ "b" [("x", Prim.int 2)] none 2 rfl (by decide)).2.1
     (by decide) (by decide)⟩

/-- Claim C3, counterexample: a stored payload containing a value the strict
JSON encoder rejects is exported *successfully* — `json.dump` runs with
`default=str` — and the unrepresentable field is silently altered to its
`str()` form, contradicting "fails with SerializationError". -/
theorem export_checkpoint_succeeds_on_bad_payload :
    (serializable [("h", Prim.handle "<object>")] = false) ∧
    (export_checkpoint
      (create_checkpoint (mkRollbackManager true 10 true) "h"
        [("h", Prim.handle "<object>")] none 1).2 (mkCheckpointId 0 1) ≠ none) ∧
    (export_checkpoint
      (create_checkpoint (mkRollbackManager true 10 true) "h"
        [("h", Prim.handle "<object>")] none 1).2 (mkCheckpointId 0 1) =
      some
        { id := some (mkCheckpointId 0 1)
          timestamp := some (isoformat 1)
          description := some "h"
          state_snapshot := some [("h", Prim.str "<object>")]
          metadata := some [] }) := by
  refine ⟨rfl, by decide, by decide⟩

/-- Claim C3 (amended): `export_checkpoint` never reports failure because of
payload contents — `json.dump` runs with `default=str`, which coerces every
unrepresentable value to its `str()` form (altering those fields in place,
dropping none) — and it fails exactly when the checkpoint id is not found
(external file-write errors are outside the model). -/
theorem export_checkpoint_total (m : RollbackManager) (cid : String) :
    (export_checkpoint m cid = none ↔ get_checkpoint m cid = none) ∧
    (∀ d, get_checkpoint m cid = some d →
      export_checkpoint m cid =
        some
          { id := some d.id
            timestamp := some d.timestamp
            description := some d.description
            state_snapshot := some (jsonDefaultStr d.state_snapshot)
            metadata := some (jsonDefaultStr d.metadata) } ∧
      (jsonDefaultStr d.state_snapshot).map Prod.fst = d.state_snapshot.map Prod.fst) := by
  constructor
  · cases hg : get_checkpoint m cid <;> simp [export_checkpoint, hg]
  · intro d hd
    exact ⟨by simp [export_checkpoint, hd], jsonDefaultStr_keys _⟩

/-- Witness for C3 (amended) at a concrete store holding a non-serializable
payload. -/
theorem export_checkpoint_total_witness :
    export_checkpoint
      (create_checkpoint (mkRollbackManager true 10 true) "h"
        [("h", Prim.handle "<object>")] none 1).2 (mkCheckpointId 0 1) =
      some
        { id := some (mkCheckpointId 0 1)
          timestamp := some (isoformat 1)
          description := some "h"
          state_snapshot := some (jsonDefaultStr [("h", Prim.handle "<object>")])
          metadata := some (jsonDefaultStr []) } :=
  ((export_checkpoint_total
      (create_checkpoint (mkRollbackManager true 10 true) "h"
        [("h", Prim.handle "<object>")] none 1).2 (mkCheckpointId 0 1)).2
    { id := mkCheckpointId 0 1
      timestamp := isoformat 1
      description := "h"
      state_snapshot := [("h", Prim.handle "<object>")]
      metadata := [] } (by decide)).1

/-- The rejection condition of `import_checkpoint` (lines 267-268, 273): a
required key among `id`, `timestamp`, `description`, `state_snapshot` is
missing, or the timestamp does not parse. -/
def importRejects (data : ExportRecord) : Prop :=
  data.id = none ∨ data.timestamp = none ∨ data.description = none ∨
    data.state_snapshot = none ∨
    ∃ ts, data.timestamp = some ts ∧ fromisoformat ts = none

/-- Claim C7 (confirmed): `import_checkpoint` returns `None` exactly when a
required key is missing or the timestamp is unparsable; on any such failure
the store is left completely unchanged; on success with `metadata` absent
the appended snapshot's metadata defaults to the empty dict. -/
theorem import_checkpoint_rejects_malformed (m : RollbackManager) (data : ExportRecord) :
    ((import_checkpoint m data).1 = none ↔ importRejects data) ∧
    (importRejects data → (import_checkpoint m data).2 = m) ∧
    (¬ importRejects data → data.metadata = none →
      ∃ rp : RollbackPoint,
        (import_checkpoint m data).2.rollback_points = m.rollback_points ++ [rp] ∧
        rp.metadata = []) := by
  obtain ⟨i, ts, desc, snap, md2⟩ := data
  cases i with
  | none => simp [import_checkpoint, importRejects]
  | some i =>
    cases ts with
    | none => simp [import_checkpoint, importRejects]
    | some ts =>
      cases desc with
      | none => simp [import_checkpoint, importRejects]
      | some desc =>
        cases snap with
        | none => simp [import_checkpoint, importRejects]
        | some snap =>
          cases hts : fromisoformat ts with
          | none => simp [import_checkpoint, importRejects, hts]
          | some t =>
            refine ⟨by simp [import_checkpoint, importRejects, hts], ?_, ?_⟩
            · intro hrej
              rcases hrej with h | h | h | h | ⟨ts2, hts2, hbad⟩ <;> simp_all
            · intro hok hmd
              simp only at hmd
              subst hmd
              refine ⟨{ id := i, timestamp := t, description := desc,
                        state_snapshot := snap,
                        metadata := (none : Option Payload).getD [] }, ?_, rfl⟩
              simp [import_checkpoint, hts]

/-- Witness for C7: a record missing `id` is rejected with the store
unchanged, and a well-formed record without `metadata` imports with empty
metadata. -/
theorem import_checkpoint_rejects_malformed_witness :
    ((import_checkpoint (mkRollbackManager true 10 true)
        ⟨none, some "7", some "d", some [], none⟩).2 = mkRollbackManager true 10 true) ∧
    (∃ rp : RollbackPoint,
      (import_checkpoint (mkRollbackManager true 10 true)
          ⟨some "a", some "7", some "d", some [], none⟩).2.rollback_points =
        (mkRollbackManager true 10 true).rollback_points ++ [rp] ∧
      rp.metadata = []) :=
  ⟨(import_checkpoint_rejects_malformed (mkRollbackManager true 10 true)
      ⟨none, some "7", some "d", some [], none⟩).2.1 (Or.inl rfl),
   (import_checkpoint_rejects_malformed (mkRollbackManager true 10 true)
      ⟨some "a", some "7", some "d", some [], none⟩).2.2 (by simp [importRejects]; decide) rfl⟩

/-- Claim C10 (confirmed): a stored snapshot whose payload the strict
`json.dumps` rejects is reported by `validate_state_integrity` — an error
entry bearing its id, a positive invalid count — yet `export_checkpoint` on
the same id still succeeds, because export serializes with `default=str`. -/
theorem validate_export_disagreement (m : RollbackManager) (cp : RollbackPoint)
    (hmem : cp ∈ m.rollback_points) (hbad : serializable cp.state_snapshot = false) :
    ((cp.id, jsonErrorText) ∈ (validate_state_integrity m).errors) ∧
    1 ≤ (validate_state_integrity m).invalid_checkpoints ∧
    export_checkpoint m cp.id ≠ none := by
  refine ⟨?_, ?_, ?_⟩
  · rw [validate_state_integrity, foldl_validateStep_errors]
    simp only [List.nil_append, List.mem_map, List.mem_filter]
    exact ⟨cp, ⟨hmem, by simp [hbad]⟩, rfl⟩
  · rw [validate_state_integrity, foldl_validateStep_invalid]
    have hin : cp ∈ m.rollback_points.filter fun c => !serializable c.state_snapshot := by
      simp [List.mem_filter, hmem, hbad]
    have hlen := List.length_pos.mpr (List.ne_nil_of_mem hin)
    omega
  · cases hf : m.rollback_points.find? (fun c => c.id == cp.id) with
    | none =>
      rw [List.find?_eq_none] at hf
      exact absurd (by simp) (hf cp hmem)
    | some c => simp [export_checkpoint, get_checkpoint, hf]

/-- Witness for C10 at a concrete store holding one non-serializable
snapshot. -/
theorem validate_export_disagreement_witness :
    ((mkCheckpointId 0 1, jsonErrorText) ∈
      (validate_state_integrity
        (create_checkpoint (mkRollbackManager true 10 true) "h"
          [("h", Prim.handle "<object>")] none 1).2).errors) ∧
    1 ≤ (validate_state_integrity
        (create_checkpoint (mkRollbackManager true 10 true) "h"
          [("h", Prim.handle "<object>")] none 1).2).invalid_checkpoints ∧
    export_checkpoint
      (create_checkpoint (mkRollbackManager true 10 true) "h"
        [("h", Prim.handle "<object>")] none 1).2 (mkCheckpointId 0 1) ≠ none :=
  validate_export_disagreement
    (create_checkpoint (mkRollbackManager true 10 true) "h"
      [("h", Prim.handle "<object>")] none 1).2
    { id := mkCheckpointId 0 1
      timestamp := 1
      description := "h"
      state_snapshot := [("h", Prim.handle "<object>")]
      metadata := [] } (by decide) (by decide)

theorem rollback_to_checkpoint_snd_fields (m : RollbackManager) (cid : String) :
    (rollback_to_checkpoint m cid).2.checkpoint_count = m.checkpoint_count ∧
    (rollback_to_checkpoint m cid).2.enabled = m.enabled ∧
    (rollback_to_checkpoint m cid).2.rollback_points = m.rollback_points := by
  unfold rollback_to_checkpoint
  split
  · exact ⟨rfl, rfl, rfl⟩
  · split
    · exact ⟨rfl, rfl, rfl⟩
    · exact ⟨rfl, rfl, rfl⟩

theorem rollback_to_latest_snd_count (m : RollbackManager) :
    (rollback_to_latest m).2.checkpoint_count = m.checkpoint_count := by
  unfold rollback_to_latest
  split
  · rfl
  · exact (rollback_to_checkpoint_snd_fields m _).1

theorem rollback_n_steps_snd_count (m : RollbackManager) (s : Int) :
    (rollback_n_steps m s).2.checkpoint_count = m.checkpoint_count := by
  unfold rollback_n_steps
  split
  · rfl
  · split
    · rfl
    · split
      · exact (rollback_to_checkpoint_snd_fields m _).1
      · rfl

theorem import_checkpoint_snd_count (m : RollbackManager) (data : ExportRecord) :
    (import_checkpoint m data).2.checkpoint_count = m.checkpoint_count := by
  unfold import_checkpoint
  split
  · split
    · rfl
    · rfl
  · rfl

theorem delete_checkpoint_snd_count (m : RollbackManager) (cid : String) :
    (delete_checkpoint m cid).2.checkpoint_count = m.checkpoint_count := by
  unfold delete_checkpoint
  split
  · rfl
  · rfl

theorem stepOp_count_mono (m : RollbackManager) (op : Op) :
    m.checkpoint_count ≤ (stepOp m op).checkpoint_count := by
  cases op with
  | create d s md now =>
    show m.checkpoint_count ≤ (create_checkpoint m d s md now).2.checkpoint_count
    unfold create_checkpoint
    split
    · exact Nat.le_refl _
    · exact Nat.le_succ _
  | rollbackTo cid => exact Nat.le_of_eq (rollback_to_checkpoint_snd_fields m cid).1.symm
  | rollbackLatest => exact Nat.le_of_eq (rollback_to_latest_snd_count m).symm
  | rollbackN s => exact Nat.le_of_eq (rollback_n_steps_snd_count m s).symm
  | deleteCp cid => exact Nat.le_of_eq (delete_checkpoint_snd_count m cid).symm
  | clearHistory => exact Nat.le_refl _
  | importCp data => exact Nat.le_of_eq (import_checkpoint_snd_count m data).symm

theorem createdIds_counts (ops : List Op) : ∀ m : RollbackManager,
    (∀ i ∈ createdIds m ops, ∃ c t, m.checkpoint_count ≤ c ∧ i = mkCheckpointId c t) ∧
    (createdIds m ops).Pairwise (fun a b => a ≠ b) := by
  induction ops with
  | nil =>
    intro m
    simp [createdIds]
  | cons op rest ih =>
    intro m
    cases op with
    | create d s md now =>
      by_cases hen : m.enabled = false
      · have hstep : create_checkpoint m d s md now = ("", m) := by
          simp [create_checkpoint, hen]
        have heq : createdIds m (Op.create d s md now :: rest) = createdIds m rest := by
          simp [createdIds, hstep]
        rw [heq]
        exact ih m
      · have hid : (create_checkpoint m d s md now).1 =
            mkCheckpointId m.checkpoint_count now := by
          simp [create_checkpoint, hen, newRollbackPoint]
        have hcount : (create_checkpoint m d s md now).2.checkpoint_count =
            m.checkpoint_count + 1 := by
          simp [create_checkpoint, hen]
        have hne : (create_checkpoint m d s md now).1 ≠ "" := by
          rw [hid]
          exact mkCheckpointId_ne_empty _ _
        have heq : createdIds m (Op.create d s md now :: rest) =
            (create_checkpoint m d s md now).1 ::
              createdIds (create_checkpoint m d s md now).2 rest := by
          simp [createdIds, hne]
        obtain ⟨ihAll, ihPw⟩ := ih (create_checkpoint m d s md now).2
        rw [heq]
        constructor
        · intro i hi
          rcases List.mem_cons.mp hi with hhd | htl
          · exact ⟨m.checkpoint_count, now, Nat.le_refl _, by rw [hhd, hid]⟩
          · obtain ⟨c, t, hc, rfl⟩ := ihAll i htl
            exact ⟨c, t, by omega, rfl⟩
        · rw [List.pairwise_cons]
          refine ⟨?_, ihPw⟩
          intro j hj hjeq
          obtain ⟨c, t, hc, rfl⟩ := ihAll j hj
          rw [hcount] at hc
          rw [hid] at hjeq
          have := mkCheckpointId_count_inj hjeq
          omega
    | rollbackTo cid =>
      have heq : createdIds m (Op.rollbackTo cid :: rest) =
          createdIds (stepOp m (Op.rollbackTo cid)) rest := by
        simp [createdIds]
      rw [heq]
      obtain ⟨ihAll, ihPw⟩ := ih (stepOp m (Op.rollbackTo cid))
      refine ⟨?_, ihPw⟩
      intro i hi
      obtain ⟨c, t, hc, rfl⟩ := ihAll i hi
      have := stepOp_count_mono m (Op.rollbackTo cid)
      exact ⟨c, t, by omega, rfl⟩
    | rollbackLatest =>
      have heq : createdIds m (Op.rollbackLatest :: rest) =
          createdIds (stepOp m Op.rollbackLatest) rest := by
        simp [createdIds]
      rw [heq]
      obtain ⟨ihAll, ihPw⟩ := ih (stepOp m Op.rollbackLatest)
      refine ⟨?_, ihPw⟩
      intro i hi
      obtain ⟨c, t, hc, rfl⟩ := ihAll i hi
      have := stepOp_count_mono m Op.rollbackLatest
      exact ⟨c, t, by omega, rfl⟩
    | rollbackN s =>
      have heq : createdIds m (Op.rollbackN s :: rest) =
          createdIds (stepOp m (Op.rollbackN s)) rest := by
        simp [createdIds]
      rw [heq]
      obtain ⟨ihAll, ihPw⟩ := ih (stepOp m (Op.rollbackN s))
      refine ⟨?_, ihPw⟩
      intro i hi
      obtain ⟨c, t, hc, rfl⟩ := ihAll i hi
      have := stepOp_count_mono m (Op.rollbackN s)
      exact ⟨c, t, by omega, rfl⟩
    | deleteCp cid =>
      have heq : createdIds m (Op.deleteCp cid :: rest) =
          createdIds (stepOp m (Op.deleteCp cid)) rest := by
        simp [createdIds]
      rw [heq]
      obtain ⟨ihAll, ihPw⟩ := ih (stepOp m (Op.deleteCp cid))
      refine ⟨?_, ihPw⟩
      intro i hi
      obtain ⟨c, t, hc, rfl⟩ := ihAll i hi
      have := stepOp_count_mono m (Op.deleteCp cid)
      exact ⟨c, t, by omega, rfl⟩
    | clearHistory =>
      have heq : createdIds m (Op.clearHistory :: rest) =
          createdIds (stepOp m Op.clearHistory) rest := by
        simp [createdIds]
      rw [heq]
      obtain ⟨ihAll, ihPw⟩ := ih (stepOp m Op.clearHistory)
      refine ⟨?_, ihPw⟩
      intro i hi
      obtain ⟨c, t, hc, rfl⟩ := ihAll i hi
      have := stepOp_count_mono m Op.clearHistory
      exact ⟨c, t, by omega, rfl⟩
    | importCp data =>
      have heq : createdIds m (Op.importCp data :: rest) =
          createdIds (stepOp m (Op.importCp data)) rest := by
        simp [createdIds]
      rw [heq]
      obtain ⟨ihAll, ihPw⟩ := ih (stepOp m (Op.importCp data))
      refine ⟨?_, ihPw⟩
      intro i hi
      obtain ⟨c, t, hc, rfl⟩ := ihAll i hi
      have := stepOp_count_mono m (Op.importCp data)
      exact ⟨c, t, by omega, rfl⟩

/-- Claim C6 (confirmed): over any call sequence on one store instance, the
non-sentinel ids returned by `create_checkpoint` are pairwise distinct, and
an id is never reused after eviction, `delete_checkpoint` or
`clear_history`: the id embeds `checkpoint_count`, which no operation ever
decreases. -/
theorem create_checkpoint_ids_unique (enabled : Bool) (max_history : Nat)
    (auto_cleanup : Bool) (ops : List Op) :
    (createdIds (mkRollbackManager enabled max_history auto_cleanup) ops).Pairwise
      (fun a b => a ≠ b) :=
  (createdIds_counts ops (mkRollbackManager enabled max_history auto_cleanup)).2

theorem sortByTimestampDesc_perm (l : List RollbackPoint) :
    (sortByTimestampDesc l).Perm l :=
  List.mergeSort_perm l _

theorem sortByTimestampDesc_sorted (l : List RollbackPoint) :
    (sortByTimestampDesc l).Pairwise (fun a b => b.timestamp ≤ a.timestamp) := by
  have h := @List.sorted_mergeSort RollbackPoint
    (fun a b : RollbackPoint => Nat.ble b.timestamp a.timestamp)
    (fun a b c hab hbc => by
      simp only [Nat.ble_eq] at hab hbc ⊢
      omega)
    (fun a b => by
      rcases Nat.le_total b.timestamp a.timestamp with h | h
      · simp [Nat.ble_eq, h]
      · simp [Nat.ble_eq, h])
    l
  exact h.imp (by
    intro a b hb
    simpa [Nat.ble_eq] using hb)

theorem sortByTimestampDesc_length (l : List RollbackPoint) :
    (sortByTimestampDesc l).length = l.length :=
  (sortByTimestampDesc_perm l).length_eq

theorem mem_of_mem_sortByTimestampDesc {l : List RollbackPoint} {cp : RollbackPoint}
    (h : cp ∈ sortByTimestampDesc l) : cp ∈ l :=
  (sortByTimestampDesc_perm l).mem_iff.mp h

theorem find_id_of_nodup (l : List RollbackPoint)
    (hnd : (l.map (fun cp => cp.id)).Nodup) (r : RollbackPoint) (hr : r ∈ l) :
    l.find? (fun cp => cp.id == r.id) = some r := by
  induction l with
  | nil => cases hr
  | cons x xs ih =>
    rw [List.map_cons, List.nodup_cons] at hnd
    rcases List.mem_cons.mp hr with rfl | hmem
    · exact List.find?_cons_of_pos _ (by simp)
    · have hxr : (x.id == r.id) = false := by
        rw [beq_eq_false_iff_ne]
        intro hxid
        exact hnd.1 (hxid ▸ List.mem_map_of_mem (fun cp => cp.id) hmem)
      rw [List.find?_cons_of_neg _ (by simp [hxr])]
      exact ih hnd.2 hmem

theorem rollback_to_checkpoint_found (m : RollbackManager) (hen : m.enabled = true)
    {cid : String} {cp : RollbackPoint}
    (hf : m.rollback_points.find? (fun c => c.id == cid) = some cp) :
    rollback_to_checkpoint m cid =
      (some cp.state_snapshot,
        { m with
          current_state := cp.state_snapshot
          rollback_count := m.rollback_count + 1 }) := by
  unfold rollback_to_checkpoint
  rw [if_neg (by simp [hen]), hf]

theorem rollback_to_checkpoint_fst_congr (m₁ m₂ : RollbackManager) (cid : String)
    (hen : m₁.enabled = m₂.enabled) (hpts : m₁.rollback_points = m₂.rollback_points) :
    (rollback_to_checkpoint m₁ cid).1 = (rollback_to_checkpoint m₂ cid).1 := by
  unfold rollback_to_checkpoint
  rw [hpts, hen]
  split
  · rfl
  · split
    · rfl
    · rfl

theorem rollback_n_steps_fst_congr (m₁ m₂ : RollbackManager) (s : Int)
    (hen : m₁.enabled = m₂.enabled) (hpts : m₁.rollback_points = m₂.rollback_points) :
    (rollback_n_steps m₁ s).1 = (rollback_n_steps m₂ s).1 := by
  unfold rollback_n_steps
  rw [hpts]
  split
  · rfl
  · split
    · rfl
    · split
      · exact rollback_to_checkpoint_fst_congr m₁ m₂ _ hen hpts
      · rfl

theorem rollback_n_steps_snd_fields (m : RollbackManager) (s : Int) :
    (rollback_n_steps m s).2.enabled = m.enabled ∧
    (rollback_n_steps m s).2.rollback_points = m.rollback_points := by
  unfold rollback_n_steps
  split
  · exact ⟨rfl, rfl⟩
  · split
    · exact ⟨rfl, rfl⟩
    · split
      · exact ⟨(rollback_to_checkpoint_snd_fields m _).2.1,
          (rollback_to_checkpoint_snd_fields m _).2.2⟩
      · exact ⟨rfl, rfl⟩

theorem rollback_n_steps_in_range (m : RollbackManager)
    (hen : m.enabled = true)
    (hnd : (m.rollback_points.map (fun cp => cp.id)).Nodup)
    (steps : Int) (h1 : 0 < steps) (h2 : steps ≤ (m.rollback_points.length : Int)) :
    ∃ target : RollbackPoint,
      (sortByTimestampDesc m.rollback_points)[(steps - 1).toNat]? = some target ∧
      target ∈ m.rollback_points ∧
      rollback_n_steps m steps =
        (some target.state_snapshot,
          { m with
            current_state := target.state_snapshot
            rollback_count := m.rollback_count + 1 }) := by
  have hlenpos : 0 < m.rollback_points.length := by omega
  have hk : (steps - 1).toNat < (sortByTimestampDesc m.rollback_points).length := by
    rw [sortByTimestampDesc_length]
    omega
  have hget := List.getElem?_eq_getElem hk
  have hmem : (sortByTimestampDesc m.rollback_points)[(steps - 1).toNat] ∈
      m.rollback_points :=
    mem_of_mem_sortByTimestampDesc (List.getElem_mem hk)
  refine ⟨(sortByTimestampDesc m.rollback_points)[(steps - 1).toNat], hget, hmem, ?_⟩
  have hne : ¬ (m.rollback_points.isEmpty = true) := by
    simp only [List.isEmpty_iff]
    intro h
    rw [h] at hlenpos
    simp at hlenpos
  unfold rollback_n_steps
  rw [if_neg hne, if_neg (by omega), hget]
  exact rollback_to_checkpoint_found m hen (find_id_of_nodup _ hnd _ hmem)

/-- Claim C4 (amended): on an *enabled* store whose entries bear pairwise
distinct ids, `rollback_n_steps` fails exactly when `steps <= 0` or
`steps > len(rollback_points)`; in range it returns the payload of the
entry at offset `steps - 1` of the history sorted by `created_at`
descending (`steps = 1` the newest, `steps = len` the oldest);
`rollback_n_steps 1` returns a payload of maximal `created_at`; and
repeated calls with the same `steps` return equal payloads.  On a disabled
store (reachable non-empty via `import_checkpoint`) every call returns
`None`, which is what forces the enabledness hypothesis — see the
counterexample. -/
theorem rollback_n_steps_spec (m : RollbackManager)
    (hen : m.enabled = true)
    (hnd : (m.rollback_points.map (fun cp => cp.id)).Nodup) :
    (∀ steps : Int,
      ((rollback_n_steps m steps).1 = none ↔
        steps ≤ 0 ∨ (m.rollback_points.length : Int) < steps)) ∧
    (∀ steps : Int, 0 < steps → steps ≤ (m.rollback_points.length : Int) →
      (rollback_n_steps m steps).1 =
        ((sortByTimestampDesc m.rollback_points)[(steps - 1).toNat]?).map
          (fun cp => cp.state_snapshot)) ∧
    (m.rollback_points ≠ [] →
      ∃ cp, cp ∈ m.rollback_points ∧
        (rollback_n_steps m 1).1 = some cp.state_snapshot ∧
        ∀ cq ∈ m.rollback_points, cq.timestamp ≤ cp.timestamp) ∧
    (∀ steps : Int,
      (rollback_n_steps (rollback_n_steps m steps).2 steps).1 =
        (rollback_n_steps m steps).1) := by
  refine ⟨?_, ?_, ?_, ?_⟩
  · intro steps
    constructor
    · intro hnone
      by_contra hc
      push_neg at hc
      obtain ⟨target, hget, hmem, heq⟩ :=
        rollback_n_steps_in_range m hen hnd steps (by omega) (by omega)
      rw [heq] at hnone
      simp at hnone
    · intro hrange
      unfold rollback_n_steps
      by_cases hempty : m.rollback_points.isEmpty = true
      · rw [if_pos hempty]
      · rw [if_neg hempty, if_pos hrange]
  · intro steps h1 h2
    obtain ⟨target, hget, hmem, heq⟩ := rollback_n_steps_in_range m hen hnd steps h1 h2
    rw [heq, hget]
    rfl
  · intro hne
    have hlen : 0 < m.rollback_points.length := List.length_pos.mpr hne
    obtain ⟨target, hget, hmem, heq⟩ :=
      rollback_n_steps_in_range m hen hnd 1 (by omega) (by simpa using hlen)
    refine ⟨target, hmem, by rw [heq], ?_⟩
    intro cq hcq
    cases hs : sortByTimestampDesc m.rollback_points with
    | nil =>
      rw [hs] at hget
      simp at hget
    | cons hd tl =>
      rw [hs] at hget
      have hhd : hd = target := by simpa using hget
      subst hhd
      have hsorted := sortByTimestampDesc_sorted m.rollback_points
      rw [hs, List.pairwise_cons] at hsorted
      have hcq2 : cq ∈ hd :: tl := by
        rw [← hs]
        exact (sortByTimestampDesc_perm m.rollback_points).mem_iff.mpr hcq
      rcases List.mem_cons.mp hcq2 with rfl | htl
      · exact Nat.le_refl _
      · exact hsorted.1 cq htl
  · intro steps
    have hf := rollback_n_steps_snd_fields m steps
    exact rollback_n_steps_fst_congr _ m steps hf.1 hf.2

/-- Witness for C4 (amended) at a concrete two-entry store: offset 3 is
rejected and offset 1 returns the newest payload. -/
theorem rollback_n_steps_spec_witness :
    ((rollback_n_steps (create_checkpoint (create_checkpoint
        (mkRollbackManager true 10 true) "a" [("x", Prim.int 1)] none 1).2
        "b" [("x", Prim.int 2)] none 2).2 3).1 = none) ∧
    (∃ cp, cp ∈ (create_checkpoint (create_checkpoint
        (mkRollbackManager true 10 true) "a" [("x", Prim.int 1)] none 1).2
        "b" [("x", Prim.int 2)] none 2).2.rollback_points ∧
      (rollback_n_steps (create_checkpoint (create_checkpoint
        (mkRollbackManager true 10 true) "a" [("x", Prim.int 1)] none 1).2
        "b" [("x", Prim.int 2)] none 2).2 1).1 = some cp.state_snapshot ∧
      ∀ cq ∈ (create_checkpoint (create_checkpoint
        (mkRollbackManager true 10 true) "a" [("x", Prim.int 1)] none 1).2
        "b" [("x", Prim.int 2)] none 2).2.rollback_points,
        cq.timestamp ≤ cp.timestamp) :=
  ⟨((rollback_n_steps_spec (create_checkpoint (create_checkpoint
        (mkRollbackManager true 10 true) "a" [("x", Prim.int 1)] none 1).2
        "b" [("x", Prim.int 2)] none 2).2 rfl (by decide)).1 3).mpr (by decide),
   (rollback_n_steps_spec (create_checkpoint (create_checkpoint
        (mkRollbackManager true 10 true) "a" [("x", Prim.int 1)] none 1).2
        "b" [("x", Prim.int 2)] none 2).2 rfl (by decide)).2.2.1 (by decide)⟩

unseal List.merge List.mergeSort in
/-- Claim C4, counterexample: on a store configured off, a checkpoint can
still be imported (`import_checkpoint` never checks `enabled`), and then
`rollback_n_steps 1` returns `None` even though `1` is inside
`[1, len(history)]` — failure is not *exactly* characterized by
`steps <= 0 ∨ steps > len(history)`. -/
theorem rollback_n_steps_disabled_counterexample :
    ((rollback_n_steps (import_checkpoint (mkRollbackManager false 10 true)
        ⟨some "a", some "7", some "d", some [("x", Prim.int 1)], none⟩).2 1).1 = none) ∧
    ¬ ((1 : Int) ≤ 0 ∨
        ((import_checkpoint (mkRollbackManager false 10 true)
          ⟨some "a", some "7", some "d", some [("x", Prim.int 1)], none⟩).2.rollback_points.length : Int) < 1) := by
  decide

/-- The accumulator loop of Python's `max(xs, key=...)` run from a seed. -/
def pyFold {α : Type} (key : α → Nat) (x : α) (xs : List α) : α :=
  xs.foldl (fun acc y => if key acc < key y then y else acc) x

theorem pyMaxBy_cons {α : Type} (key : α → Nat) (x : α) (xs : List α) :
    pyMaxBy key (x :: xs) = some (pyFold key x xs) := rfl

theorem pyFold_spec {α : Type} (key : α → Nat) (xs : List α) : ∀ x : α,
    (key x ≤ key (pyFold key x xs)) ∧
    (∀ y ∈ xs, key y ≤ key (pyFold key x xs)) ∧
    (pyFold key x xs = x ∨
      (key x < key (pyFold key x xs) ∧
        ∃ pre post, xs = pre ++ pyFold key x xs :: post ∧
          ∀ y ∈ pre, key y < key (pyFold key x xs))) := by
  induction xs with
  | nil =>
    intro x
    exact ⟨Nat.le_refl _, by simp, Or.inl rfl⟩
  | cons z zs ih =>
    intro x
    by_cases hlt : key x < key z
    · have hz : pyFold key x (z :: zs) = pyFold key z zs := by
        simp [pyFold, List.foldl_cons, if_pos hlt]
      obtain ⟨h1, h2, h3⟩ := ih z
      rw [hz]
      refine ⟨by omega, ?_, ?_⟩
      · intro y hy
        rcases List.mem_cons.mp hy with rfl | hmem
        · exact h1
        · exact h2 y hmem
      · right
        rcases h3 with heq | ⟨hlt2, pre, post, heqs, hpre⟩
        · rw [heq]
          exact ⟨by omega, [], zs, rfl, by simp⟩
        · refine ⟨by omega, z :: pre, post, by rw [List.cons_append, ← heqs], ?_⟩
          intro y hy
          rcases List.mem_cons.mp hy with rfl | hmem
          · omega
          · exact hpre y hmem
    · have hz : pyFold key x (z :: zs) = pyFold key x zs := by
        simp [pyFold, List.foldl_cons, if_neg hlt]
      obtain ⟨h1, h2, h3⟩ := ih x
      rw [hz]
      refine ⟨h1, ?_, ?_⟩
      · intro y hy
        rcases List.mem_cons.mp hy with rfl | hmem
        · omega
        · exact h2 y hmem
      · rcases h3 with heq | ⟨hlt2, pre, post, heqs, hpre⟩
        · exact Or.inl heq
        · refine Or.inr ⟨hlt2, z :: pre, post, by rw [List.cons_append, ← heqs], ?_⟩
          intro y hy
          rcases List.mem_cons.mp hy with rfl | hmem
          · omega
          · exact hpre y hmem

/-- Claim C5 (amended): on an enabled store with pairwise-distinct ids,
`rollback_to_latest` on non-empty history returns the payload of an entry
with maximal `created_at`, choosing the *earliest appended* among tied
entries (Python's `max` keeps the first maximum, not the most recently
appended); on empty history it returns `None`. -/
theorem rollback_to_latest_spec (m : RollbackManager)
    (hen : m.enabled = true)
    (hnd : (m.rollback_points.map (fun cp => cp.id)).Nodup) :
    (m.rollback_points = [] → (rollback_to_latest m).1 = none) ∧
    (m.rollback_points ≠ [] →
      ∃ cp, (rollback_to_latest m).1 = some cp.state_snapshot ∧
        (∀ cq ∈ m.rollback_points, cq.timestamp ≤ cp.timestamp) ∧
        ∃ pre post, m.rollback_points = pre ++ cp :: post ∧
          ∀ cq ∈ pre, cq.timestamp < cp.timestamp) := by
  constructor
  · intro hnil
    unfold rollback_to_latest
    rw [hnil]
    rfl
  · intro hne
    obtain ⟨x, xs, hxs⟩ := List.exists_cons_of_ne_nil hne
    obtain ⟨h1, h2, h3⟩ := pyFold_spec (fun cp => cp.timestamp) xs x
    set r := pyFold (fun cp => cp.timestamp) x xs with hr
    have hmax : pyMaxBy (fun cp => cp.timestamp) m.rollback_points = some r := by
      rw [hxs, pyMaxBy_cons]
    have hdecomp : ∃ pre post,
        m.rollback_points = pre ++ r :: post ∧
        ∀ cq ∈ pre, cq.timestamp < r.timestamp := by
      rcases h3 with heq | ⟨hlt2, pre, post, heqs, hpre⟩
      · refine ⟨[], xs, ?_, by simp⟩
        rw [hxs, heq]
        rfl
      · refine ⟨x :: pre, post, ?_, ?_⟩
        · rw [hxs, heqs]
          rfl
        · intro cq hcq
          rcases List.mem_cons.mp hcq with rfl | hmem
          · exact hlt2
          · exact hpre cq hmem
    obtain ⟨pre, post, hdeq, hdlt⟩ := hdecomp
    have hmem : r ∈ m.rollback_points := by
      rw [hdeq]
      exact List.mem_append_right pre (List.mem_cons_self _ _)
    refine ⟨r, ?_, ?_, pre, post, hdeq, hdlt⟩
    · unfold rollback_to_latest
      rw [hmax]
      show (rollback_to_checkpoint m r.id).1 = some r.state_snapshot
      rw [rollback_to_checkpoint_found m hen (find_id_of_nodup _ hnd _ hmem)]
    · intro cq hcq
      rw [hxs] at hcq
      rcases List.mem_cons.mp hcq with rfl | hmem2
      · exact h1
      · exact h2 cq hmem2

/-- Witness for C5 (amended) at a concrete two-entry store with distinct
timestamps. -/
theorem rollback_to_latest_spec_witness :
    ∃ cp, (rollback_to_latest (create_checkpoint (create_checkpoint
        (mkRollbackManager true 10 true) "a" [("x", Prim.int 1)] none 1).2
        "b" [("x", Prim.int 2)] none 2).2).1 = some cp.state_snapshot ∧
      (∀ cq ∈ (create_checkpoint (create_checkpoint
        (mkRollbackManager true 10 true) "a" [("x", Prim.int 1)] none 1).2
        "b" [("x", Prim.int 2)] none 2).2.rollback_points,
        cq.timestamp ≤ cp.timestamp) ∧
      ∃ pre post, (create_checkpoint (create_checkpoint
        (mkRollbackManager true 10 true) "a" [("x", Prim.int 1)] none 1).2
        "b" [("x", Prim.int 2)] none 2).2.rollback_points = pre ++ cp :: post ∧
        ∀ cq ∈ pre, cq.timestamp < cp.timestamp :=
  (rollback_to_latest_spec (create_checkpoint (create_checkpoint
      (mkRollbackManager true 10 true) "a" [("x", Prim.int 1)] none 1).2
      "b" [("x", Prim.int 2)] none 2).2 rfl (by decide)).2 (by decide)

/-- Claim C5, counterexample: two checkpoints share the maximal
`created_at`; the most recently appended of them carries payload `{x: 2}`,
but `rollback_to_latest` returns `{x: 1}` — Python's `max` keeps the
*first* maximal entry, so ties break to the earliest appended, not the most
recently appended. -/
theorem rollback_to_latest_tie_counterexample :
    ((create_checkpoint (create_checkpoint (mkRollbackManager true 10 true)
        "a" [("x", Prim.int 1)] none 5).2 "b" [("x", Prim.int 2)] none 5).2.rollback_points.map
      (fun cp => (cp.timestamp, cp.state_snapshot)) =
      [(5, [("x", Prim.int 1)]), (5, [("x", Prim.int 2)])]) ∧
    ((rollback_to_latest (create_checkpoint (create_checkpoint
        (mkRollbackManager true 10 true)
        "a" [("x", Prim.int 1)] none 5).2 "b" [("x", Prim.int 2)] none 5).2).1 =
      some [("x", Prim.int 1)]) ∧
    ([("x", Prim.int 1)] ≠ ([("x", Prim.int 2)] : Payload)) := by
  decide

/-- Claim C8, counterexample: a snapshot whose payload holds a
non-JSON-representable value does not round-trip: export coerces the value
to its `str()` form (`default=str`), so the re-imported payload differs from
the original. -/
theorem round_trip_counterexample :
    (export_checkpoint
        (create_checkpoint (mkRollbackManager true 10 true) "h"
          [("h", Prim.handle "<object>")] none 1).2 (mkCheckpointId 0 1) =
      some
        { id := some (mkCheckpointId 0 1)
          timestamp := some (isoformat 1)
          description := some "h"
          state_snapshot := some [("h", Prim.str "<object>")]
          metadata := some [] }) ∧
    ((import_checkpoint (mkRollbackManager true 10 true)
        { id := some (mkCheckpointId 0 1)
          timestamp := some (isoformat 1)
          description := some "h"
          state_snapshot := some [("h", Prim.str "<object>")]
          metadata := some [] }).2.rollback_points.map (fun cp => cp.state_snapshot) =
      [[("h", Prim.str "<object>")]]) ∧
    ((create_checkpoint (mkRollbackManager true 10 true) "h"
        [("h", Prim.handle "<object>")] none 1).2.rollback_points.map
      (fun cp => cp.state_snapshot) = [[("h", Prim.handle "<object>")]]) ∧
    ([("h", Prim.str "<object>")] ≠ ([("h", Prim.handle "<object>")] : Payload)) := by
  decide

/-- Claim C8 (amended): for every stored Snapshot whose payload and metadata
the strict JSON encoder accepts, `import(export(id))` against a fresh store
reproduces the Snapshot exactly — `description`, `payload` and `metadata`
identical, `id` and `timestamp` preserved verbatim.  The representability
restriction is forced: export serializes with `default=str`, so a payload
holding a non-JSON value is altered on the way out (see the
counterexample). -/
theorem export_import_round_trip (m : RollbackManager) (cid : String)
    (cp : RollbackPoint) (enabled2 : Bool) (max2 : Nat) (ac2 : Bool)
    (hf : m.rollback_points.find? (fun c => c.id == cid) = some cp)
    (hs : serializable cp.state_snapshot = true)
    (hm : serializable cp.metadata = true) :
    export_checkpoint m cid =
      some
        { id := some cp.id
          timestamp := some (isoformat cp.timestamp)
          description := some cp.description
          state_snapshot := some cp.state_snapshot
          metadata := some cp.metadata } ∧
    (import_checkpoint (mkRollbackManager enabled2 max2 ac2)
        { id := some cp.id
          timestamp := some (isoformat cp.timestamp)
          description := some cp.description
          state_snapshot := some cp.state_snapshot
          metadata := some cp.metadata }).1 = some cp.id ∧
    (import_checkpoint (mkRollbackManager enabled2 max2 ac2)
        { id := some cp.id
          timestamp := some (isoformat cp.timestamp)
          description := some cp.description
          state_snapshot := some cp.state_snapshot
          metadata := some cp.metadata }).2.rollback_points = [cp] := by
  refine ⟨?_, ?_, ?_⟩
  · simp [export_checkpoint, get_checkpoint, hf, RollbackPoint.to_dict,
      jsonDefaultStr_of_serializable hs, jsonDefaultStr_of_serializable hm]
  · simp [import_checkpoint, fromisoformat_isoformat]
  · simp [import_checkpoint, fromisoformat_isoformat, mkRollbackManager]

/-- Witness for C8 (amended): a JSON-clean snapshot round-trips exactly
through export and import into a fresh store. -/
theorem export_import_round_trip_witness :
    export_checkpoint
      (create_checkpoint (mkRollbackManager true 10 true) "a"
        [("x", Prim.int 1)] none 1).2 (mkCheckpointId 0 1) =
      some
        { id := some (mkCheckpointId 0 1)
          timestamp := some (isoformat 1)
          description := some "a"
          state_snapshot := some [("x", Prim.int 1)]
          metadata := some [] } ∧
    (import_checkpoint (mkRollbackManager true 10 true)
        { id := some (mkCheckpointId 0 1)
          timestamp := some (isoformat 1)
          description := some "a"
          state_snapshot := some [("x", Prim.int 1)]
          metadata := some [] }).1 = some (mkCheckpointId 0 1) ∧
    (import_checkpoint (mkRollbackManager true 10 true)
        { id := some (mkCheckpointId 0 1)
          timestamp := some (isoformat 1)
          description := some "a"
          state_snapshot := some [("x", Prim.int 1)]
          metadata := some [] }).2.rollback_points =
      [{ id := mkCheckpointId 0 1
         timestamp := 1
         description := "a"
         state_snapshot := [("x", Prim.int 1)]
         metadata := [] }] :=
  export_import_round_trip
    (create_checkpoint (mkRollbackManager true 10 true) "a"
      [("x", Prim.int 1)] none 1).2 (mkCheckpointId 0 1)
    { id := mkCheckpointId 0 1
      timestamp := 1
      description := "a"
      state_snapshot := [("x", Prim.int 1)]
      metadata := [] } true 10 true (by decide) rfl rfl

theorem Heap.read_alloc_lt (h : Heap) (d : Dict) {a : Nat} (ha : a < h.next) :
    (h.alloc d).2.read a = h.read a :=
  Heap.read_alloc_ne h d (by omega)

/-- Reads through the heap produced by `hcreate_checkpoint` on an enabled
store: every pre-existing object is untouched, and the address `h.next`
(the freshly allocated deep copy that the new `RollbackPoint` stores as its
`state_snapshot`) holds the contents the caller's payload had at creation
time. -/
theorem hcreate_checkpoint_heap_read (m : HManager) (h : Heap) (d : String) (a : Nat)
    (md : Option Nat) (now : Nat) (hen : ¬ (m.enabled = false)) :
    (∀ b, b < h.next → (hcreate_checkpoint m h d a md now).2.2.read b = h.read b) ∧
    ((hcreate_checkpoint m h d a md now).2.2.read h.next = h.read a) := by
  cases md with
  | none =>
    simp only [hcreate_checkpoint, if_neg hen, Heap.deepcopy]
    constructor
    · intro b hb
      rw [Heap.read_alloc_lt, Heap.read_alloc_lt, Heap.read_alloc_lt]
      · exact hb
      · show b < h.next + 1
        omega
      · show b < h.next + 2
        omega
    · rw [Heap.read_alloc_lt, Heap.read_alloc_lt]
      · exact Heap.read_alloc_self h (h.read a)
      · show h.next < h.next + 1
        omega
      · show h.next < h.next + 2
        omega
  | some amd =>
    simp only [hcreate_checkpoint, if_neg hen, Heap.deepcopy]
    by_cases hmt : ((h.alloc (h.read a)).2.read amd = [])
    · rw [if_pos hmt]
      constructor
      · intro b hb
        rw [Heap.read_alloc_lt, Heap.read_alloc_lt, Heap.read_alloc_lt]
        · exact hb
        · show b < h.next + 1
          omega
        · show b < h.next + 2
          omega
      · rw [Heap.read_alloc_lt, Heap.read_alloc_lt]
        · exact Heap.read_alloc_self h (h.read a)
        · show h.next < h.next + 1
          omega
        · show h.next < h.next + 2
          omega
    · rw [if_neg hmt]
      constructor
      · intro b hb
        rw [Heap.read_alloc_lt, Heap.read_alloc_lt]
        · exact hb
        · show b < h.next + 1
          omega
      · rw [Heap.read_alloc_lt]
        · exact Heap.read_alloc_self h (h.read a)
        · show h.next < h.next + 1
          omega

/-- Claim C1 (amended): deep-copy isolation holds on creation and on the
rollback read path, but not on the lookup path.  (1) `create_checkpoint`
stores a *fresh* deep copy of the payload, so mutating the caller's dict
afterwards leaves the stored `state_snapshot` unchanged; (2) the rollback
path returns a fresh deep copy, so mutating a restored payload leaves the
stored `state_snapshot` unchanged; but (3) `get_checkpoint` — and with it
`get_checkpoint_history` and `export_checkpoint`, which reuse the same
`to_dict` — returns a dict whose `state_snapshot` and `metadata` entries
*alias* the stored objects, so mutating that returned payload mutates the
stored Snapshot (see the counterexample); the stored `metadata` likewise
aliases the caller's mapping (`metadata or {}` on line 85 copies nothing). -/
theorem snapshot_isolation_amended :
    (∀ (m : HManager) (h : Heap) (d : String) (a : Nat) (md : Option Nat) (now : Nat),
      m.enabled = true → a < h.next →
      ¬ (m.auto_cleanup = true ∧ m.max_history < m.rollback_points.length + 1) →
      ((hcreate_checkpoint m h d a md now).2.1.rollback_points.map
          (fun cp => cp.state_snapshot) =
        m.rollback_points.map (fun cp => cp.state_snapshot) ++ [h.next]) ∧
      h.next ≠ a ∧
      ((hcreate_checkpoint m h d a md now).2.2.read h.next = h.read a) ∧
      (∀ k v,
        ((hcreate_checkpoint m h d a md now).2.2.setItem a k v).read h.next =
          (hcreate_checkpoint m h d a md now).2.2.read h.next)) ∧
    (∀ (m : HManager) (h : Heap) (cid : String) (cp : HRollbackPoint),
      m.enabled = true →
      m.rollback_points.find? (fun c => c.id == cid) = some cp →
      cp.state_snapshot < h.next →
      (hrollback_to_checkpoint m h cid).1 = some h.next ∧
      h.next ≠ cp.state_snapshot ∧
      ((hrollback_to_checkpoint m h cid).2.2.read h.next = h.read cp.state_snapshot) ∧
      (∀ k v,
        ((hrollback_to_checkpoint m h cid).2.2.setItem h.next k v).read cp.state_snapshot =
          (hrollback_to_checkpoint m h cid).2.2.read cp.state_snapshot)) ∧
    (∀ (m : HManager) (cid : String) (cp : HRollbackPoint),
      m.rollback_points.find? (fun c => c.id == cid) = some cp →
      hget_checkpoint m cid =
        some
          { id := cp.id
            timestamp := isoformat cp.timestamp
            description := cp.description
            state_snapshot := cp.state_snapshot
            metadata := cp.metadata }) := by
  refine ⟨?_, ?_, ?_⟩
  · intro m h d a md now hen ha hnoev
    have hen2 : ¬ (m.enabled = false) := by simp [hen]
    refine ⟨?_, by omega, (hcreate_checkpoint_heap_read m h d a md now hen2).2,
      fun k v => Heap.read_setItem_ne _ (by omega) k v⟩
    simp only [hcreate_checkpoint, if_neg hen2]
    rw [if_neg (fun hc => hnoev ⟨hc.1, by simpa using hc.2⟩)]
    simp [Heap.deepcopy, Heap.alloc]
  · intro m h cid cp hen hf hlt
    have hen2 : ¬ (m.enabled = false) := by simp [hen]
    refine ⟨?_, by omega, ?_, fun k v => Heap.read_setItem_ne _ (by omega) k v⟩
    · simp [hrollback_to_checkpoint, if_neg hen2, hf, Heap.deepcopy, Heap.alloc]
    · simp only [hrollback_to_checkpoint, if_neg hen2, hf, Heap.deepcopy]
      exact Heap.read_alloc_self h _
  · intro m cid cp hf
    simp [hget_checkpoint, hf]

/-- Witness for C1 (amended) at a concrete one-object heap: the stored
snapshot is a fresh copy and survives mutation of the caller's payload. -/
theorem snapshot_isolation_amended_witness :
    ((hcreate_checkpoint
        { enabled := true, max_history := 10, auto_cleanup := true,
          rollback_points := [], current_state := 0, rollback_count := 0,
          checkpoint_count := 0 }
        ((Heap.mk [] 0).alloc [("x", Prim.int 1)]).2 "init" 0 none 1).2.1.rollback_points.map
      (fun cp => cp.state_snapshot) = [1]) ∧
    ((1 : Nat) ≠ 0) ∧
    ((hcreate_checkpoint
        { enabled := true, max_history := 10, auto_cleanup := true,
          rollback_points := [], current_state := 0, rollback_count := 0,
          checkpoint_count := 0 }
        ((Heap.mk [] 0).alloc [("x", Prim.int 1)]).2 "init" 0 none 1).2.2.read 1 =
      ((Heap.mk [] 0).alloc [("x", Prim.int 1)]).2.read 0) ∧
    (∀ k v,
      ((hcreate_checkpoint
          { enabled := true, max_history := 10, auto_cleanup := true,
            rollback_points := [], current_state := 0, rollback_count := 0,
            checkpoint_count := 0 }
          ((Heap.mk [] 0).alloc [("x", Prim.int 1)]).2 "init" 0 none 1).2.2.setItem 0 k v).read 1 =
        (hcreate_checkpoint
          { enabled := true, max_history := 10, auto_cleanup := true,
            rollback_points := [], current_state := 0, rollback_count := 0,
            checkpoint_count := 0 }
          ((Heap.mk [] 0).alloc [("x", Prim.int 1)]).2 "init" 0 none 1).2.2.read 1) :=
  snapshot_isolation_amended.1
    { enabled := true, max_history := 10, auto_cleanup := true,
      rollback_points := [], current_state := 0, rollback_count := 0,
      checkpoint_count := 0 }
    ((Heap.mk [] 0).alloc [("x", Prim.int 1)]).2 "init" 0 none 1 rfl
    (by decide) (by decide)

/-- Claim C1, counterexample: `get_checkpoint` returns `to_dict` output
whose `state_snapshot` is the stored dict itself (address 1), not a copy;
writing `x = 2` through that returned payload changes the stored Snapshot's
`state_snapshot` from `{x: 1}` to `{x: 2}` — a read path that does not
return an independent copy. -/
theorem snapshot_isolation_counterexample :
    (hget_checkpoint
        (hcreate_checkpoint
          { enabled := true, max_history := 10, auto_cleanup := true,
            rollback_points := [], current_state := 0, rollback_count := 0,
            checkpoint_count := 0 }
          ((Heap.mk [] 0).alloc [("x", Prim.int 1)]).2 "init" 0 none 1).2.1
        (mkCheckpointId 0 1) =
      some
        { id := mkCheckpointId 0 1
          timestamp := isoformat 1
          description := "init"
          state_snapshot := 1
          metadata := 2 }) ∧
    ((hcreate_checkpoint
        { enabled := true, max_history := 10, auto_cleanup := true,
          rollback_points := [], current_state := 0, rollback_count := 0,
          checkpoint_count := 0 }
        ((Heap.mk [] 0).alloc [("x", Prim.int 1)]).2 "init" 0 none 1).2.1.rollback_points.map
      (fun cp => cp.state_snapshot) = [1]) ∧
    ((hcreate_checkpoint
        { enabled := true, max_history := 10, auto_cleanup := true,
          rollback_points := [], current_state := 0, rollback_count := 0,
          checkpoint_count := 0 }
        ((Heap.mk [] 0).alloc [("x", Prim.int 1)]).2 "init" 0 none 1).2.2.read 1 =
      [("x", Prim.int 1)]) ∧
    (((hcreate_checkpoint
        { enabled := true, max_history := 10, auto_cleanup := true,
          rollback_points := [], current_state := 0, rollback_count := 0,
          checkpoint_count := 0 }
        ((Heap.mk [] 0).alloc [("x", Prim.int 1)]).2 "init" 0 none 1).2.2.setItem 1 "x"
        (Prim.int 2)).read 1 = [("x", Prim.int 2)]) ∧
    ([("x", Prim.int 2)] ≠ ([("x", Prim.int 1)] : Dict)) := by
  decide
